import Mathlib

/-!
Shallow embedding of the HTTP log exporter's core
(`exporters/httplogexporter/httplogexporter.go`): the line parser
`parseLogLine` (four cascaded regular-expression strategies) and the
metric aggregator `updateMetrics`.

Strings are modelled as `List Char`.  Go's `regexp` package (RE2 syntax,
leftmost-first semantics) is embedded by direct deterministic matchers for
the four concrete patterns of the source; each greedy sub-pattern in those
patterns is followed by a character outside its class, so maximal-munch
scanning is exactly the regexp semantics (the one exception, `\S+"` in the
combined pattern, resolves to "maximal non-space run ending in a quote",
which the matcher implements directly).
-/

namespace HttpLog

/-- Go regexp `\s` character class: `[\t\n\f\r ]`. -/
def goSpace (c : Char) : Bool :=
  c = ' ' || c = '\t' || c = '\n' || c = '\x0c' || c = '\r'

/-- Go regexp `\S`: complement of `goSpace`. -/
def nonSpace (c : Char) : Bool := !(goSpace c)

/-- Go regexp word character (for `\b`): `[0-9A-Za-z_]`. -/
def isWordChar (c : Char) : Bool := c.isAlphanum || c = '_'

/-- Maximal non-empty run of characters satisfying `p` (greedy `X+` where the
following pattern character is outside the class of `X`). -/
def munch1 (p : Char → Bool) (cs : List Char) : Option (List Char × List Char) :=
  let r := cs.takeWhile p
  if r.isEmpty then none else some (r, cs.dropWhile p)

/-- Maximal possibly-empty run (greedy `X*` followed by a character outside
the class of `X`). -/
def munch0 (p : Char → Bool) (cs : List Char) : List Char × List Char :=
  (cs.takeWhile p, cs.dropWhile p)

/-- Consume one literal character. -/
def expectChar (c : Char) : List Char → Option (List Char)
  | [] => none
  | x :: xs => if x = c then some xs else none

/-- Consume a literal string. -/
def expectStr : List Char → List Char → Option (List Char)
  | [], cs => some cs
  | _ :: _, [] => none
  | p :: ps, c :: cs => if c = p then expectStr ps cs else none

/-- Value of a decimal digit string (`matches[i]` of a `(\d+)` capture). -/
def digitsVal (ds : List Char) : Nat :=
  ds.foldl (fun a c => a * 10 + (c.toNat - 48)) 0

/-- `strconv.Atoi` on a non-empty decimal digit capture: `int` is 64-bit, so
the parse succeeds iff the value fits in `int64`; on range error Go returns
the clamped value `2^63 - 1` together with `ErrRange`.  The source ignores
the error and uses the returned value. -/
def goAtoiVal (ds : List Char) : Int :=
  Int.ofNat (min (digitsVal ds) (2 ^ 63 - 1))

/-- Whether `strconv.Atoi` succeeds (no range error) on a digit capture. -/
def goAtoiOk (ds : List Char) : Prop := digitsVal ds ≤ 2 ^ 63 - 1

instance goAtoiOkDec (ds : List Char) : Decidable (goAtoiOk ds) :=
  inferInstanceAs (Decidable (digitsVal ds ≤ 2 ^ 63 - 1))

/-- `strconv.Itoa`. -/
def goItoa (i : Int) : List Char := (toString i).data

/-- `LogEntry` (httplogexporter.go, lines 52-61).  Go zero values: empty
strings and `0`. -/
structure LogEntry where
  timestamp : List Char
  method : List Char
  path : List Char
  statusCode : Int
  responseSize : Int
  userAgent : List Char
  podName : List Char
  containerName : List Char
deriving DecidableEq, Repr

/-- `(\S+) ` / `\S+ `: a non-empty non-space token followed by a literal
space; returns the token and the rest after the space. -/
def tokenSp (cs : List Char) : Option (List Char × List Char) := do
  let (t, r) ← munch1 nonSpace cs
  let r ← expectChar ' ' r
  pure (t, r)

/-- `\[([^\]]+)\] "`: the bracketed timestamp followed by a space and the
opening quote of the request section, shared by both access-log patterns. -/
def tsQuote (cs : List Char) : Option (List Char × List Char) := do
  let r ← expectChar '[' cs
  let (ts, r) ← munch1 (fun c => !(c = ']')) r
  let r ← expectChar ']' r
  let r ← expectChar ' ' r
  let r ← expectChar '"' r
  pure (ts, r)

/-- `(\d+) (\d+)`: the status and size captures closing both patterns. -/
def statusSize (cs : List Char) : Option (List Char × List Char) := do
  let (st, r) ← munch1 Char.isDigit cs
  let r ← expectChar ' ' r
  let (sz, _) ← munch1 Char.isDigit r
  pure (st, sz)

/-- `\S+" `: a greedy non-space run that must close with the quote (the quote
is itself non-space, so the maximal run must end in it and the protocol part
before it must be non-empty), then the space before the status capture. -/
def protoQuoteSp (cs : List Char) : Option (List Char) := do
  let (run, r) ← munch1 nonSpace cs
  if run.getLast? = some '"' ∧ 2 ≤ run.length then
    expectChar ' ' r
  else
    none

/-- `[^"]*" `: greedy run of non-quote characters, closing quote, space. -/
def restQuoteSp (cs : List Char) : Option (List Char) := do
  let r := (munch0 (fun c => !(c = '"')) cs).2
  let r ← expectChar '"' r
  expectChar ' ' r

/-- Matcher for `combinedLogPattern`
`^(\S+) \S+ \S+ \[([^\]]+)\] "(\S+) (\S+) \S+" (\d+) (\d+)`.
Returns the captures `(timestamp, method, path, status, size)`
(`matches[2..6]`; capture 1 is unused by the source). -/
def matchCombined (cs : List Char) : Option (List Char × List Char × List Char × List Char × List Char) := do
  let (_, r) ← tokenSp cs
  let (_, r) ← tokenSp r
  let (_, r) ← tokenSp r
  let (ts, r) ← tsQuote r
  let (m, r) ← tokenSp r
  let (p, r) ← tokenSp r
  let r ← protoQuoteSp r
  let (st, sz) ← statusSize r
  pure (ts, m, p, st, sz)

/-- Matcher for `commonLogPattern`
`^(\S+) - - \[([^\]]+)\] "(\S+) (\S+) [^"]*" (\d+) (\d+)`. -/
def matchCommon (cs : List Char) : Option (List Char × List Char × List Char × List Char × List Char) := do
  let (_, r) ← munch1 nonSpace cs
  let r ← expectStr (' ' :: '-' :: ' ' :: '-' :: ' ' :: []) r
  let (ts, r) ← tsQuote r
  let (m, r) ← tokenSp r
  let (p, r) ← tokenSp r
  let r ← restQuoteSp r
  let (st, sz) ← statusSize r
  pure (ts, m, p, st, sz)

/-- One attempt of `jsonLogPattern` `"status"\s*:\s*(\d+)` at a fixed start
position: the literal quoted key, optional whitespace, a colon, optional
whitespace, then the digit capture. -/
def jsonAt (cs : List Char) : Option (List Char) := do
  let r ← expectStr ('"' :: 's' :: 't' :: 'a' :: 't' :: 'u' :: 's' :: '"' :: []) cs
  let r := (munch0 goSpace r).2
  let r ← expectChar ':' r
  let r := (munch0 goSpace r).2
  let (st, _) ← munch1 Char.isDigit r
  pure st

/-- `jsonLogPattern.FindStringSubmatch`: leftmost occurrence wins. -/
def jsonScan : List Char → Option (List Char)
  | [] => none
  | c :: rest =>
    match jsonAt (c :: rest) with
    | some st => some st
    | none => jsonScan rest

/-- Whether `statusCodePattern` `\b([45]\d{2})\b` matches at position `i` of
`line`: first digit `4` or `5`, two more digits, and `\b` on both sides
(position `0` or a non-word character before; end of line or a non-word
character after). -/
def spotOk (l : List Char) (i : Nat) : Bool :=
  (match l[i]? with
   | some c => c = '4' || c = '5'
   | none => false)
  && (match l[i + 1]? with
      | some c => c.isDigit
      | none => false)
  && (match l[i + 2]? with
      | some c => c.isDigit
      | none => false)
  && (decide (i = 0)
      || (match l[i - 1]? with
          | some c => !isWordChar c
          | none => true))
  && (match l[i + 3]? with
      | some c => !isWordChar c
      | none => true)

/-- The three-character capture of the fallback pattern at position `i`. -/
def windowAt (l : List Char) (i : Nat) : List Char :=
  (l.drop i).take 3

/-- Scan start positions left to right (leftmost-match semantics of
`FindStringSubmatch`). -/
def findSpotAux (l : List Char) : Nat → Nat → Option Nat
  | _, 0 => none
  | i, fuel + 1 => if spotOk l i then some i else findSpotAux l (i + 1) fuel

/-- Position of the leftmost `statusCodePattern` match, if any. -/
def findSpot (l : List Char) : Option Nat :=
  findSpotAux l 0 l.length

/-- `parseLogLine` (httplogexporter.go, lines 248-303): the four strategies
in priority order; `strconv.Atoi` errors on the captures are discarded. -/
def parseLogLine (line podName containerName : List Char) : Option LogEntry :=
  match matchCombined line with
  | some (ts, m, p, st, sz) =>
    some { timestamp := ts, method := m, path := p,
           statusCode := goAtoiVal st, responseSize := goAtoiVal sz,
           userAgent := [], podName := podName, containerName := containerName }
  | none =>
    match matchCommon line with
    | some (ts, m, p, st, sz) =>
      some { timestamp := ts, method := m, path := p,
             statusCode := goAtoiVal st, responseSize := goAtoiVal sz,
             userAgent := [], podName := podName, containerName := containerName }
    | none =>
      match jsonScan line with
      | some st =>
        some { timestamp := [], method := [], path := [],
               statusCode := goAtoiVal st, responseSize := 0,
               userAgent := [], podName := podName, containerName := containerName }
      | none =>
        match findSpot line with
        | some i =>
          some { timestamp := [], method := [], path := [],
                 statusCode := goAtoiVal (windowAt line i), responseSize := 0,
                 userAgent := [], podName := podName, containerName := containerName }
        | none => none

/-- Counter state of the two families the aggregator touches
(`http_requests_total` with labels namespace, pod, container, status_code;
`http_errors_total` with the additional error_class label). -/
structure MetricsState where
  httpRequestsTotal : List Char × List Char × List Char × List Char → Nat
  httpErrorsTotal : List Char × List Char × List Char × List Char × List Char → Nat

/-- Increment one counter series by 1 (`CounterVec.WithLabelValues(...).Inc()`). -/
def bumpAt {α : Type} [DecidableEq α] (f : α → Nat) (k : α) : α → Nat :=
  fun x => if x = k then f x + 1 else f x

/-- `updateMetrics` (httplogexporter.go, lines 306-335). -/
def updateMetrics (ns : List Char) (st : MetricsState) (e : LogEntry) : MetricsState :=
  let code := goItoa e.statusCode
  let rk := (ns, e.podName, e.containerName, code)
  let k4 := (ns, e.podName, e.containerName, code, "4xx".data)
  let k5 := (ns, e.podName, e.containerName, code, "5xx".data)
  let st1 : MetricsState :=
    { st with httpRequestsTotal := bumpAt st.httpRequestsTotal rk }
  if e.statusCode ≥ 400 ∧ e.statusCode < 500 then
    { st1 with httpErrorsTotal := bumpAt st1.httpErrorsTotal k4 }
  else if e.statusCode ≥ 500 ∧ e.statusCode < 600 then
    { st1 with httpErrorsTotal := bumpAt st1.httpErrorsTotal k5 }
  else
    st1

/-- One iteration of the scrape loop body (httplogexporter.go, lines 231-233):
a parsed entry updates the metrics, a discarded line leaves them unchanged. -/
def processLine (ns : List Char) (st : MetricsState) (line podName containerName : List Char) : MetricsState :=
  match parseLogLine line podName containerName with
  | some e => updateMetrics ns st e
  | none => st

lemma bumpAt_self {α : Type} [DecidableEq α] (f : α → Nat) (k : α) :
    bumpAt f k k = f k + 1 := by
  simp [bumpAt]

lemma bumpAt_ne {α : Type} [DecidableEq α] (f : α → Nat) (k x : α) (h : x ≠ k) :
    bumpAt f k x = f x := by
  simp [bumpAt, h]

lemma goAtoiVal_bounds (ds : List Char) :
    0 ≤ goAtoiVal ds ∧ goAtoiVal ds ≤ 9223372036854775807 := by
  unfold goAtoiVal
  refine ⟨Int.ofNat_nonneg _, ?_⟩
  exact le_trans (Int.ofNat_le.mpr (min_le_right _ _)) (by norm_num)

lemma parseLogLine_combined_eq (line p c ts m pa st sz : List Char)
    (h : matchCombined line = some (ts, m, pa, st, sz)) :
    parseLogLine line p c
      = some { timestamp := ts, method := m, path := pa,
               statusCode := goAtoiVal st, responseSize := goAtoiVal sz,
               userAgent := [], podName := p, containerName := c } := by
  simp [parseLogLine, h]

lemma parseLogLine_common_eq (line p c ts m pa st sz : List Char)
    (h1 : matchCombined line = none)
    (h2 : matchCommon line = some (ts, m, pa, st, sz)) :
    parseLogLine line p c
      = some { timestamp := ts, method := m, path := pa,
               statusCode := goAtoiVal st, responseSize := goAtoiVal sz,
               userAgent := [], podName := p, containerName := c } := by
  simp [parseLogLine, h1, h2]

lemma parseLogLine_json_eq (line p c ds : List Char)
    (h1 : matchCombined line = none) (h2 : matchCommon line = none)
    (h3 : jsonScan line = some ds) :
    parseLogLine line p c
      = some { timestamp := [], method := [], path := [],
               statusCode := goAtoiVal ds, responseSize := 0,
               userAgent := [], podName := p, containerName := c } := by
  simp [parseLogLine, h1, h2, h3]

lemma parseLogLine_fallback_eq (line p c : List Char) (i : Nat)
    (h1 : matchCombined line = none) (h2 : matchCommon line = none)
    (h3 : jsonScan line = none) (h4 : findSpot line = some i) :
    parseLogLine line p c
      = some { timestamp := [], method := [], path := [],
               statusCode := goAtoiVal (windowAt line i), responseSize := 0,
               userAgent := [], podName := p, containerName := c } := by
  simp [parseLogLine, h1, h2, h3, h4]

lemma parseLogLine_none_eq (line p c : List Char)
    (h1 : matchCombined line = none) (h2 : matchCommon line = none)
    (h3 : jsonScan line = none) (h4 : findSpot line = none) :
    parseLogLine line p c = none := by
  simp [parseLogLine, h1, h2, h3, h4]

/-- C1: for every `LogEntry` passed to `updateMetrics`, exactly one
`requestsTotal` series (labelled namespace, pod, container, decimal status
code) is incremented by exactly 1, and an `errorsTotal` series is incremented
by exactly 1 iff `400 ≤ StatusCode < 600`, with error class `"4xx"` below the
500 boundary and `"5xx"` from 500 up to 599. -/
theorem updateMetrics_exactly_one (ns : List Char) (st : MetricsState) (e : LogEntry) :
    ((updateMetrics ns st e).httpRequestsTotal (ns, e.podName, e.containerName, goItoa e.statusCode)
        = st.httpRequestsTotal (ns, e.podName, e.containerName, goItoa e.statusCode) + 1)
    ∧ (∀ k, k ≠ (ns, e.podName, e.containerName, goItoa e.statusCode) →
        (updateMetrics ns st e).httpRequestsTotal k = st.httpRequestsTotal k)
    ∧ ((400 ≤ e.statusCode ∧ e.statusCode < 500) →
        ((updateMetrics ns st e).httpErrorsTotal (ns, e.podName, e.containerName, goItoa e.statusCode, "4xx".data)
            = st.httpErrorsTotal (ns, e.podName, e.containerName, goItoa e.statusCode, "4xx".data) + 1
          ∧ ∀ k, k ≠ (ns, e.podName, e.containerName, goItoa e.statusCode, "4xx".data) →
              (updateMetrics ns st e).httpErrorsTotal k = st.httpErrorsTotal k))
    ∧ ((500 ≤ e.statusCode ∧ e.statusCode < 600) →
        ((updateMetrics ns st e).httpErrorsTotal (ns, e.podName, e.containerName, goItoa e.statusCode, "5xx".data)
            = st.httpErrorsTotal (ns, e.podName, e.containerName, goItoa e.statusCode, "5xx".data) + 1
          ∧ ∀ k, k ≠ (ns, e.podName, e.containerName, goItoa e.statusCode, "5xx".data) →
              (updateMetrics ns st e).httpErrorsTotal k = st.httpErrorsTotal k))
    ∧ ((e.statusCode < 400 ∨ 600 ≤ e.statusCode) →
        ∀ k, (updateMetrics ns st e).httpErrorsTotal k = st.httpErrorsTotal k) := by
  simp only [updateMetrics]
  split_ifs with h4 h5
  · refine ⟨bumpAt_self _ _, fun k hk => bumpAt_ne _ _ _ hk, fun _ => ⟨bumpAt_self _ _, fun k hk => bumpAt_ne _ _ _ hk⟩, fun h5 => absurd h5 (by omega), fun h0 => absurd h4 (by omega)⟩
  · refine ⟨bumpAt_self _ _, fun k hk => bumpAt_ne _ _ _ hk, fun h4x => absurd h4x (by omega), fun _ => ⟨bumpAt_self _ _, fun k hk => bumpAt_ne _ _ _ hk⟩, fun h0 => absurd h5 (by omega)⟩
  · refine ⟨bumpAt_self _ _, fun k hk => bumpAt_ne _ _ _ hk, fun h4x => absurd h4x h4, fun h5x => absurd h5x h5, fun _ _ => rfl⟩

/-- C1 witness: a 404 entry on fresh counters puts the request series and the
`"4xx"` error series both at 1. -/
theorem updateMetrics_exactly_one_w :
    (updateMetrics "ns".data ⟨fun _ => 0, fun _ => 0⟩
        { timestamp := [], method := [], path := [], statusCode := 404, responseSize := 0,
          userAgent := [], podName := "p".data, containerName := "c".data }).httpRequestsTotal
        ("ns".data, "p".data, "c".data, goItoa 404) = 1
    ∧ (updateMetrics "ns".data ⟨fun _ => 0, fun _ => 0⟩
        { timestamp := [], method := [], path := [], statusCode := 404, responseSize := 0,
          userAgent := [], podName := "p".data, containerName := "c".data }).httpErrorsTotal
        ("ns".data, "p".data, "c".data, goItoa 404, "4xx".data) = 1 := by
  have h := updateMetrics_exactly_one "ns".data ⟨fun _ => 0, fun _ => 0⟩
    { timestamp := [], method := [], path := [], statusCode := 404, responseSize := 0,
      userAgent := [], podName := "p".data, containerName := "c".data }
  exact ⟨h.1, (h.2.2.1 ⟨by norm_num, by norm_num⟩).1⟩

/-- C9: `parseLogLine` is deterministic and pure — identical `(line, podName,
containerName)` arguments give field-for-field identical results; the
embedding is a total function of its arguments alone. -/
theorem parseLogLine_pure (l₁ p₁ c₁ l₂ p₂ c₂ : List Char)
    (hl : l₁ = l₂) (hp : p₁ = p₂) (hc : c₁ = c₂) :
    parseLogLine l₁ p₁ c₁ = parseLogLine l₂ p₂ c₂ := by
  subst hl
  subst hp
  subst hc
  rfl

/-- C9 witness: two invocations on an identical concrete input agree. -/
theorem parseLogLine_pure_w :
    parseLogLine "x 404 y".data "p".data "c".data = parseLogLine "x 404 y".data "p".data "c".data :=
  parseLogLine_pure "x 404 y".data "p".data "c".data "x 404 y".data "p".data "c".data rfl rfl rfl

/-- C2 counterexample: a line whose only digits are the token `45012` yields
no event at all — `501` is not extracted from inside the longer number,
because `statusCodePattern` demands word boundaries. -/
theorem embedded_45012_cex :
    parseLogLine "Processing order 45012 complete".data "p".data "c".data = none := by
  decide

/-- C2 amended: a `[45]xx` window accepted by the fallback pattern always has
a word boundary on both sides — the character before the match (when the
match is not at position 0) and the character after it (when any) are
non-word characters, so a 3-digit run embedded inside a longer number never
matches. -/
theorem fallback_word_boundary (l : List Char) (i : Nat) (h : spotOk l i = true) :
    (i = 0 ∨ ∃ c, l[i - 1]? = some c ∧ isWordChar c = false)
    ∧ (l[i + 3]? = none ∨ ∃ c, l[i + 3]? = some c ∧ isWordChar c = false) := by
  unfold spotOk at h
  simp only [Bool.and_eq_true, Bool.or_eq_true, decide_eq_true_eq] at h
  obtain ⟨⟨⟨⟨h1, _⟩, _⟩, h4⟩, h5⟩ := h
  constructor
  · rcases h4 with h0 | hprev
    · exact Or.inl h0
    · cases hc : l[i - 1]? with
      | none =>
        exfalso
        cases hq : l[i]? with
        | none => rw [hq] at h1; exact Bool.noConfusion h1
        | some c1 =>
          have hlen : i < l.length := by
            rcases List.getElem?_eq_some.mp hq with ⟨w, _⟩
            exact w
          have hge : l.length ≤ i - 1 := List.getElem?_eq_none_iff.mp hc
          omega
      | some c =>
        rw [hc] at hprev
        exact Or.inr ⟨c, rfl, by simpa using hprev⟩
  · cases hc : l[i + 3]? with
    | none => exact Or.inl rfl
    | some c =>
      rw [hc] at h5
      exact Or.inr ⟨c, rfl, by simpa using h5⟩

/-- C2 amended witness: in `x 404` the fallback match at position 2 is
bounded by a space before and the end of the line after. -/
theorem fallback_word_boundary_w :
    ((2 : Nat) = 0 ∨ ∃ c, "x 404".data[2 - 1]? = some c ∧ isWordChar c = false)
    ∧ ("x 404".data[2 + 3]? = none ∨ ∃ c, "x 404".data[2 + 3]? = some c ∧ isWordChar c = false) :=
  fallback_word_boundary "x 404".data 2 (by decide)

/-- C4 counterexample: an unquoted `status: 200` key-value pair does not
match the key-value strategy (the pattern requires the literal quoted key
`"status"`), and no other strategy matches, so no event is produced. -/
theorem json_unquoted_cex :
    parseLogLine "status: 200".data "p".data "c".data = none := by
  decide

/-- C4 amended: the key-value strategy requires the key in quoted form; with
the quoted key it tolerates whitespace around the colon and populates only
`statusCode` (all other extracted fields empty/zero), while an unquoted
`status: 200` line matches no strategy and yields no event. -/
theorem json_quoted_only (p c : List Char) :
    parseLogLine "\"status\" : 404".data p c
      = some { timestamp := [], method := [], path := [], statusCode := 404,
               responseSize := 0, userAgent := [], podName := p, containerName := c }
    ∧ parseLogLine "status: 200".data p c = none := by
  constructor
  · have h := parseLogLine_json_eq "\"status\" : 404".data p c
      ('4' :: '0' :: '4' :: []) (by decide) (by decide) (by decide)
    rw [h]
    have hv : goAtoiVal ('4' :: '0' :: '4' :: []) = 404 := by decide
    rw [hv]
  · exact parseLogLine_none_eq "status: 200".data p c (by decide) (by decide) (by decide) (by decide)

/-- C5 counterexample: a combined-format line with status capture `1234`
parses to an event whose statusCode is 1234, outside `[0, 999]`. -/
theorem status_range_cex :
    parseLogLine "127.0.0.1 - - [25/Dec/2019:01:17:21 +0000] \"GET /api HTTP/1.1\" 1234 10".data "p".data "c".data
      = some { timestamp := "25/Dec/2019:01:17:21 +0000".data, method := "GET".data,
               path := "/api".data, statusCode := 1234, responseSize := 10, userAgent := [],
               podName := "p".data, containerName := "c".data }
    ∧ ¬ ((1234 : Int) ≤ 999) :=
  ⟨by decide, by decide⟩

/-- C5 amended: every `LogEntry` returned by `parseLogLine` has statusCode in
`[0, 2^63 - 1]` (digit captures are non-negative and `strconv.Atoi` clamps at
`int64` max); the `[0, 999]` bound of the claim does not hold because the
structured strategies capture unbounded digit runs. -/
theorem parse_status_bounds (l p c : List Char) (e : LogEntry)
    (h : parseLogLine l p c = some e) :
    0 ≤ e.statusCode ∧ e.statusCode ≤ 9223372036854775807 := by
  cases hm : matchCombined l with
  | some t =>
    obtain ⟨ts, m, pa, st, sz⟩ := t
    rw [parseLogLine_combined_eq l p c ts m pa st sz hm] at h
    obtain rfl := Option.some.inj h
    exact goAtoiVal_bounds st
  | none =>
    cases hm2 : matchCommon l with
    | some t =>
      obtain ⟨ts, m, pa, st, sz⟩ := t
      rw [parseLogLine_common_eq l p c ts m pa st sz hm hm2] at h
      obtain rfl := Option.some.inj h
      exact goAtoiVal_bounds st
    | none =>
      cases hm3 : jsonScan l with
      | some ds =>
        rw [parseLogLine_json_eq l p c ds hm hm2 hm3] at h
        obtain rfl := Option.some.inj h
        exact goAtoiVal_bounds ds
      | none =>
        cases hm4 : findSpot l with
        | some i =>
          rw [parseLogLine_fallback_eq l p c i hm hm2 hm3 hm4] at h
          obtain rfl := Option.some.inj h
          exact goAtoiVal_bounds (windowAt l i)
        | none =>
          rw [parseLogLine_none_eq l p c hm hm2 hm3 hm4] at h
          exact Option.noConfusion h

/-- C5 amended witness: the fallback event for a 503 line is in bounds. -/
theorem parse_status_bounds_w :
    0 ≤ ({ timestamp := [], method := [], path := [], statusCode := 503, responseSize := 0,
           userAgent := [], podName := "s".data, containerName := "b".data } : LogEntry).statusCode
    ∧ ({ timestamp := [], method := [], path := [], statusCode := 503, responseSize := 0,
         userAgent := [], podName := "s".data, containerName := "b".data } : LogEntry).statusCode
        ≤ 9223372036854775807 :=
  parse_status_bounds "Service unavailable: returning 503 status".data "s".data "b".data
    { timestamp := [], method := [], path := [], statusCode := 503, responseSize := 0,
      userAgent := [], podName := "s".data, containerName := "b".data } (by decide)

/-- C6: a line matching strategy 1's combined shape — even one that also
contains a `"status":` key-value pair — is interpreted via strategy 1: the
event carries the timestamp, method and path captures, never the strategy-3
shape. -/
theorem combined_priority (l p c ts m pa st sz : List Char)
    (hc : matchCombined l = some (ts, m, pa, st, sz))
    (_hj : ∃ ds, jsonScan l = some ds) :
    parseLogLine l p c
      = some { timestamp := ts, method := m, path := pa,
               statusCode := goAtoiVal st, responseSize := goAtoiVal sz,
               userAgent := [], podName := p, containerName := c } :=
  parseLogLine_combined_eq l p c ts m pa st sz hc

/-- C6 witness: a combined-format line with a trailing `"status": 500` pair
is parsed by strategy 1 with its own captures. -/
theorem combined_priority_w :
    parseLogLine "127.0.0.1 - - [01/Jan/2024:00:00:00 +0000] \"POST /submit HTTP/1.1\" 200 12 \"status\": 500".data "p".data "c".data
      = some { timestamp := "01/Jan/2024:00:00:00 +0000".data, method := "POST".data,
               path := "/submit".data, statusCode := goAtoiVal "200".data,
               responseSize := goAtoiVal "12".data, userAgent := [],
               podName := "p".data, containerName := "c".data } :=
  combined_priority
    "127.0.0.1 - - [01/Jan/2024:00:00:00 +0000] \"POST /submit HTTP/1.1\" 200 12 \"status\": 500".data
    "p".data "c".data "01/Jan/2024:00:00:00 +0000".data "POST".data "/submit".data
    "200".data "12".data (by decide) ⟨"500".data, by decide⟩

/-- C8: a line matching none of the four strategies is silently discarded:
`parseLogLine` returns `none`, the scrape-loop step leaves every counter
unchanged, and no error path exists. -/
theorem no_match_silent (ns : List Char) (st : MetricsState) (l p c : List Char)
    (h1 : matchCombined l = none) (h2 : matchCommon l = none)
    (h3 : jsonScan l = none) (h4 : findSpot l = none) :
    parseLogLine l p c = none ∧ processLine ns st l p c = st := by
  have hp := parseLogLine_none_eq l p c h1 h2 h3 h4
  exact ⟨hp, by simp [processLine, hp]⟩

lemma findSpotAux_some (l : List Char) :
    ∀ fuel i j, findSpotAux l i fuel = some j →
      i ≤ j ∧ spotOk l j = true ∧ ∀ k, i ≤ k → k < j → spotOk l k = false := by
  intro fuel
  induction fuel with
  | zero =>
    intro i j h
    exact absurd h (by simp [findSpotAux])
  | succ n ih =>
    intro i j h
    rw [findSpotAux] at h
    by_cases hs : spotOk l i
    · rw [if_pos hs] at h
      obtain rfl := Option.some.inj h
      exact ⟨Nat.le_refl i, hs, fun k hk1 hk2 => absurd (Nat.lt_of_le_of_lt hk1 hk2) (Nat.lt_irrefl i)⟩
    · rw [if_neg hs] at h
      obtain ⟨hij, hsj, hmin⟩ := ih (i + 1) j h
      simp only [Bool.not_eq_true] at hs
      refine ⟨by omega, hsj, fun k hk1 hk2 => ?_⟩
      rcases Nat.eq_or_lt_of_le hk1 with rfl | hlt
      · exact hs
      · exact hmin k hlt hk2

lemma findSpotAux_none (l : List Char) :
    ∀ fuel i, findSpotAux l i fuel = none →
      ∀ k, i ≤ k → k < i + fuel → spotOk l k = false := by
  intro fuel
  induction fuel with
  | zero =>
    intro i _ k hk1 hk2
    omega
  | succ n ih =>
    intro i h k hk1 hk2
    rw [findSpotAux] at h
    by_cases hs : spotOk l i
    · rw [if_pos hs] at h
      exact Option.noConfusion h
    · rw [if_neg hs] at h
      simp only [Bool.not_eq_true] at hs
      rcases Nat.eq_or_lt_of_le hk1 with rfl | hlt
      · exact hs
      · exact ih (i + 1) h k hlt (by omega)

lemma spotOk_fields (l : List Char) (i : Nat) (h : spotOk l i = true) :
    ∃ c1 c2 c3, l[i]? = some c1 ∧ l[i + 1]? = some c2 ∧ l[i + 2]? = some c3
      ∧ (c1 = '4' ∨ c1 = '5') ∧ c2.isDigit = true ∧ c3.isDigit = true := by
  unfold spotOk at h
  simp only [Bool.and_eq_true] at h
  obtain ⟨⟨⟨⟨h1, h2⟩, h3⟩, -⟩, -⟩ := h
  cases hq1 : l[i]? with
  | none => rw [hq1] at h1; exact Bool.noConfusion h1
  | some c1 =>
    cases hq2 : l[i + 1]? with
    | none => rw [hq2] at h2; exact Bool.noConfusion h2
    | some c2 =>
      cases hq3 : l[i + 2]? with
      | none => rw [hq3] at h3; exact Bool.noConfusion h3
      | some c3 =>
        rw [hq1] at h1
        rw [hq2] at h2
        rw [hq3] at h3
        simp only [Bool.or_eq_true, decide_eq_true_eq] at h1
        exact ⟨c1, c2, c3, rfl, rfl, rfl, h1, h2, h3⟩

lemma windowAt_three (l : List Char) (i : Nat) (c1 c2 c3 : Char)
    (h1 : l[i]? = some c1) (h2 : l[i + 1]? = some c2) (h3 : l[i + 2]? = some c3) :
    windowAt l i = [c1, c2, c3] := by
  have e1 : (l.drop i)[0]? = some c1 := by
    rw [List.getElem?_drop]
    simpa using h1
  have e2 : (l.drop i)[1]? = some c2 := by
    rw [List.getElem?_drop]
    exact h2
  have e3 : (l.drop i)[2]? = some c3 := by
    rw [List.getElem?_drop]
    exact h3
  unfold windowAt
  cases hd : l.drop i with
  | nil =>
    rw [hd] at e1
    simp at e1
  | cons a t =>
    rw [hd] at e1 e2 e3
    simp only [List.getElem?_cons_zero, List.getElem?_cons_succ, Option.some.injEq] at e1 e2 e3
    cases t with
    | nil => simp at e2
    | cons b t2 =>
      simp only [List.getElem?_cons_zero, List.getElem?_cons_succ, Option.some.injEq] at e2 e3
      cases t2 with
      | nil => simp at e3
      | cons d t3 =>
        simp only [List.getElem?_cons_zero, Option.some.injEq] at e3
        subst e1
        subst e2
        subst e3
        rfl

lemma char_digit_le (c : Char) (h : c.isDigit = true) :
    48 ≤ c.toNat ∧ c.toNat ≤ 57 := by
  simp only [Char.isDigit, decide_eq_true_eq, Bool.and_eq_true] at h
  exact ⟨h.1, h.2⟩

lemma digitsVal_triple (a b c : Char) :
    digitsVal [a, b, c] = ((a.toNat - 48) * 10 + (b.toNat - 48)) * 10 + (c.toNat - 48) := by
  simp [digitsVal]

lemma spotOk_val (l : List Char) (i : Nat) (h : spotOk l i = true) :
    400 ≤ digitsVal (windowAt l i) ∧ digitsVal (windowAt l i) < 600 := by
  obtain ⟨c1, c2, c3, hq1, hq2, hq3, hc1, hc2, hc3⟩ := spotOk_fields l i h
  rw [windowAt_three l i c1 c2 c3 hq1 hq2 hq3, digitsVal_triple]
  have b2 := char_digit_le c2 hc2
  have b3 := char_digit_le c3 hc3
  rcases hc1 with rfl | rfl
  · have h4 : ('4' : Char).toNat = 52 := rfl
    omega
  · have h5 : ('5' : Char).toNat = 53 := rfl
    omega

lemma spotOk_goAtoiVal (l : List Char) (i : Nat) (h : spotOk l i = true) :
    400 ≤ goAtoiVal (windowAt l i) ∧ goAtoiVal (windowAt l i) < 600 := by
  obtain ⟨hlo, hhi⟩ := spotOk_val l i h
  have hval : goAtoiVal (windowAt l i) = (digitsVal (windowAt l i) : Int) := by
    show Int.ofNat (min (digitsVal (windowAt l i)) (2 ^ 63 - 1)) = Int.ofNat (digitsVal (windowAt l i))
    congr 1
    omega
  rw [hval]
  exact ⟨by exact_mod_cast hlo, by exact_mod_cast hhi⟩

lemma spotOk_lt_len (l : List Char) (i : Nat) (h : spotOk l i = true) :
    i < l.length := by
  obtain ⟨c1, -, -, hq1, -⟩ := spotOk_fields l i h
  rcases List.getElem?_eq_some.mp hq1 with ⟨w, -⟩
  exact w

lemma findSpot_complete (l : List Char) (i : Nat) (h : spotOk l i = true) :
    ∃ j, findSpot l = some j := by
  cases hf : findSpot l with
  | some j => exact ⟨j, rfl⟩
  | none =>
    exfalso
    have hlt : i < l.length := spotOk_lt_len l i h
    have hfalse := findSpotAux_none l l.length 0 hf i (Nat.zero_le i) (by omega)
    rw [hfalse] at h
    exact Bool.noConfusion h

/-- C7: a line handled by the bare fallback strategy (the first three
strategies fail) can only produce an event with statusCode in `[400, 600)`;
tokens whose first digit is not 4 or 5 are never matched, so 2xx/3xx codes
never arise from strategy 4. -/
theorem fallback_error_range (l p c : List Char) (e : LogEntry)
    (h1 : matchCombined l = none) (h2 : matchCommon l = none) (h3 : jsonScan l = none)
    (h : parseLogLine l p c = some e) :
    400 ≤ e.statusCode ∧ e.statusCode < 600 := by
  cases hf : findSpot l with
  | none =>
    rw [parseLogLine_none_eq l p c h1 h2 h3 hf] at h
    exact Option.noConfusion h
  | some i =>
    rw [parseLogLine_fallback_eq l p c i h1 h2 h3 hf] at h
    obtain rfl := Option.some.inj h
    exact spotOk_goAtoiVal l i (findSpotAux_some l l.length 0 i hf).2.1

/-- C7 witness: the fallback event of a 503 line lies in `[400, 600)`. -/
theorem fallback_error_range_w :
    400 ≤ ({ timestamp := [], method := [], path := [], statusCode := 503, responseSize := 0,
             userAgent := [], podName := "w".data, containerName := "b".data } : LogEntry).statusCode
    ∧ ({ timestamp := [], method := [], path := [], statusCode := 503, responseSize := 0,
         userAgent := [], podName := "w".data, containerName := "b".data } : LogEntry).statusCode < 600 :=
  fallback_error_range "Service unavailable: returning 503 status".data "w".data "b".data
    { timestamp := [], method := [], path := [], statusCode := 503, responseSize := 0,
      userAgent := [], podName := "w".data, containerName := "b".data }
    (by decide) (by decide) (by decide) (by decide)

/-- C10: on a line where strategies 1-3 fail and several standalone `[45]xx`
tokens occur, the fallback extracts the leftmost matching position: the event
carries the capture at a position before which no position matches. -/
theorem fallback_leftmost (l p c : List Char) (i j : Nat)
    (h1 : matchCombined l = none) (h2 : matchCommon l = none) (h3 : jsonScan l = none)
    (hi : spotOk l i = true) (_hj : spotOk l j = true) (_hij : i ≠ j) :
    ∃ k, spotOk l k = true ∧ (∀ m, m < k → spotOk l m = false)
      ∧ parseLogLine l p c
          = some { timestamp := [], method := [], path := [],
                   statusCode := goAtoiVal (windowAt l k), responseSize := 0,
                   userAgent := [], podName := p, containerName := c } := by
  obtain ⟨k, hk⟩ := findSpot_complete l i hi
  obtain ⟨-, hsk, hmin⟩ := findSpotAux_some l l.length 0 k hk
  exact ⟨k, hsk, fun m hm => hmin m (Nat.zero_le m) hm,
    parseLogLine_fallback_eq l p c k h1 h2 h3 hk⟩

/-- C10 witness: with standalone tokens 404 (position 8) and 503 (position
17), the fallback extracts the leftmost one. -/
theorem fallback_leftmost_w :
    parseLogLine "errors: 404 then 503 happened".data "p".data "c".data
      = some { timestamp := [], method := [], path := [],
               statusCode := goAtoiVal (windowAt "errors: 404 then 503 happened".data 8),
               responseSize := 0, userAgent := [], podName := "p".data,
               containerName := "c".data } := by
  obtain ⟨k, hks, hmin, hp⟩ := fallback_leftmost "errors: 404 then 503 happened".data
    "p".data "c".data 8 17 (by decide) (by decide) (by decide) (by decide) (by decide)
    (by decide)
  rcases Nat.lt_trichotomy k 8 with hlt | heq | hgt
  · exfalso
    have hall : ∀ m, m < 8 → spotOk "errors: 404 then 503 happened".data m = false := by decide
    have hfalse := hall k hlt
    rw [hks] at hfalse
    exact Bool.noConfusion hfalse
  · subst heq
    exact hp
  · exfalso
    have h8 : spotOk "errors: 404 then 503 happened".data 8 = true := by decide
    have hfalse := hmin 8 hgt
    rw [h8] at hfalse
    exact Bool.noConfusion hfalse

/-- C8 witness: the empty line is discarded and the state is untouched. -/
theorem no_match_silent_w :
    parseLogLine "".data "e".data "a".data = none
    ∧ processLine "ns".data ⟨fun _ => 0, fun _ => 0⟩ "".data "e".data "a".data
        = ⟨fun _ => 0, fun _ => 0⟩ :=
  no_match_silent "ns".data ⟨fun _ => 0, fun _ => 0⟩ "".data "e".data "a".data
    (by decide) (by decide) (by decide) (by decide)

end HttpLog
